import Mathlib

/-!
Verification of the oversold-reversal stock screener backend.

Shallow embedding of the Python sources:
  `backend/indicators.py`  – sma, ema, rsi, macd
  `backend/scanner.py`     – `_detect_signals`, `_score_and_reason`, `_process_symbol`
  `backend/main.py`        – skip/replay partition, persistence projections, `start_scan`
  `backend/mock_data.py`   – `_business_days`, price-walk generators, `mock_price_history`

Modelling conventions:
  * Python floats are modelled as exact rationals (`ℚ`).
  * Python's `round(x, nd)` (round-half-to-even) is modelled exactly by `pyRound`.
  * Calendar dates are modelled as integers counting days since 1970-01-01, so
    `weekday d = (d + 3) % 7` (1970-01-01 was a Thursday); `strftime "%Y-%m-%d"`
    is an injection of days into strings and is left at the day-number level.
  * The seeded RNG (`random.Random(md5(...))`) is a pure function of its seed;
    its stream of `gauss(0, 1)`-shaped draws is abstracted as an explicit
    argument `noise : ℕ → ℚ` (the t-th standard draw), with `gauss(0, σ)`
    modelled as `σ * noise t`, preserving the draw-sequencing of the source.
  * JSON text columns are modelled by their structural content (the serializer
    is injective, so byte-identity of columns is equality of the content).
-/

namespace StockScreener

/-- Python `round` to an integer: round half to even (banker's rounding). -/
def pyRoundInt (q : ℚ) : ℤ :=
  if q - ⌊q⌋ < 1/2 then ⌊q⌋
  else if 1/2 < q - ⌊q⌋ then ⌊q⌋ + 1
  else if ⌊q⌋ % 2 = 0 then ⌊q⌋ else ⌊q⌋ + 1

/-- Python `round(x, nd)` for `nd` decimal digits. -/
def pyRound (q : ℚ) (nd : ℕ) : ℚ :=
  (pyRoundInt (q * 10 ^ nd) : ℚ) / 10 ^ nd

/-- Python's tail slice `l[-k:]` (for `k = 0` Python returns the whole list). -/
def pyTail {α : Type} (l : List α) (k : ℕ) : List α :=
  if k = 0 then l else l.drop (l.length - k)

/-- Python `min` over a list, `none` on the empty list. -/
def listMin? (l : List ℚ) : Option ℚ :=
  l.foldr (fun x acc => match acc with
    | none => some x
    | some y => some (min x y)) none

/-! ## `indicators.py` : sma -/
/-- The running-sum loop of `sma` (`for i in range(period, len(closes))`):
`wsum` is the window sum ending at index `i - 1`; each step adds the newest
close and subtracts the oldest, emitting `window_sum / period`. -/

def smaFrom (closes : List ℚ) (period : ℕ) (i : ℕ) (wsum : ℚ) : List (Option ℚ) :=
  if h : i < closes.length then
    let ws := wsum + closes.getD i 0 - closes.getD (i - period) 0
    some (ws / period) :: smaFrom closes period (i + 1) ws
  else []
  termination_by closes.length - i

/-- `indicators.sma`: same-length series, first `period - 1` entries `None`,
seeded with the plain sum of the first `period` closes, then the running-sum
loop.  (Python raises `ZeroDivisionError` for `period = 0`; claims assume
`period ≥ 1`.) -/
def sma (closes : List ℚ) (period : ℕ) : List (Option ℚ) :=
  if closes.length < period then List.replicate closes.length none
  else
    let wsum := (closes.take period).sum
    List.replicate (period - 1) none ++
      some (wsum / period) :: smaFrom closes period period wsum

/-- Brute-force trailing-window sum: sum of the `p` closes ending at index `i`. -/
def winSum (closes : List ℚ) (p i : ℕ) : ℚ :=
  ((closes.drop (i + 1 - p)).take p).sum

/-! ## `indicators.py` : rsi (Wilder smoothing) -/
/-- Day-over-day `(gain, loss)` pairs: `gain = max(diff, 0)`,
`loss = max(-diff, 0)` for each consecutive pair of closes. -/

def diffs (closes : List ℚ) : List (ℚ × ℚ) :=
  (closes.zip closes.tail).map (fun ab => (max (ab.2 - ab.1) 0, max (ab.1 - ab.2) 0))

/-- One oscillator reading from the smoothed averages: `100` when the average
loss is zero (the code never divides by zero), else `100 - 100/(1 + rs)`. -/
def rsiVal (avgGain avgLoss : ℚ) : ℚ :=
  if avgLoss = 0 then 100 else 100 - 100 / (1 + avgGain / avgLoss)

/-- The Wilder-smoothing loop (`for i in range(period, len(gains))`), carrying
both running averages and emitting `(value, smoothed average loss)` pairs. -/
def rsiStepPairs (period : ℕ) : List (ℚ × ℚ) → ℚ → ℚ → List (ℚ × ℚ)
  | [], _, _ => []
  | gl :: rest, avgGain, avgLoss =>
      let ag := (avgGain * ((period : ℚ) - 1) + gl.1) / period
      let al := (avgLoss * ((period : ℚ) - 1) + gl.2) / period
      (rsiVal ag al, al) :: rsiStepPairs period rest ag al

/-- `indicators.rsi`, instrumented: each defined entry carries the oscillator
value together with the trailing Wilder-smoothed average loss used to compute
it.  First `period` entries are `None`; all `None` when `len(closes) ≤ period`. -/
def rsiWithLoss (closes : List ℚ) (period : ℕ) : List (Option (ℚ × ℚ)) :=
  if closes.length ≤ period then List.replicate closes.length none
  else
    let gl := diffs closes
    let avgGain := ((gl.take period).map Prod.fst).sum / period
    let avgLoss := ((gl.take period).map Prod.snd).sum / period
    List.replicate period none ++
      ((rsiVal avgGain avgLoss, avgLoss) :: rsiStepPairs period (gl.drop period) avgGain avgLoss).map some

/-- `indicators.rsi`: the oscillator series (value component only). -/
def rsi (closes : List ℚ) (period : ℕ := 14) : List (Option ℚ) :=
  (rsiWithLoss closes period).map (Option.map Prod.fst)

/-! ## `indicators.py` : ema and macd -/
/-- The EMA advance loop (`for i in range(period, len(closes))`):
`value[i] = close[i]·k + value[i-1]·(1-k)`. -/

def emaFrom (closes : List ℚ) (k : ℚ) (i : ℕ) (prev : ℚ) : List (Option ℚ) :=
  if h : i < closes.length then
    let cur := closes.getD i 0 * k + prev * (1 - k)
    some cur :: emaFrom closes k (i + 1) cur
  else []
  termination_by closes.length - i

/-- `indicators.ema`: seeded at index `period - 1` with the plain moving
average of the first `period` closes, `k = 2/(period+1)`. -/
def ema (closes : List ℚ) (period : ℕ) : List (Option ℚ) :=
  if closes.length < period then List.replicate closes.length none
  else
    let k := 2 / ((period : ℚ) + 1)
    let seed := (closes.take period).sum / period
    List.replicate (period - 1) none ++ some seed :: emaFrom closes k period seed

structure MACDResult where
  macd_line : List (Option ℚ)
  signal_line : List (Option ℚ)
  histogram : List (Option ℚ)
deriving DecidableEq

/-- The signal-EMA advance over the remaining defined MACD values, emitting
`(original index, value)` assignments. -/
def signalAssignLoop (k : ℚ) : List (ℕ × ℚ) → ℚ → List (ℕ × ℚ)
  | [], _ => []
  | iv :: rest, prev =>
      let cur := iv.2 * k + prev * (1 - k)
      (iv.1, cur) :: signalAssignLoop k rest cur

/-- `indicators.macd`: MACD line = fast EMA − slow EMA where both are defined;
signal line = EMA over the *defined* MACD values only (scattered back to their
original indices); histogram = MACD − signal where both are defined. -/
def macd (closes : List ℚ) (fast slow signal_period : ℕ) : MACDResult :=
  let ema_fast := ema closes fast
  let ema_slow := ema closes slow
  let n := closes.length
  let macd_line := List.zipWith (fun a b => match a, b with
    | some x, some y => some (x - y)
    | _, _ => none) ema_fast ema_slow
  let valid_macd : List (ℕ × ℚ) :=
    macd_line.enum.filterMap (fun iv => iv.2.map (fun v => (iv.1, v)))
  let signal_assign : List (ℕ × ℚ) :=
    if signal_period ≤ valid_macd.length then
      let k := 2 / ((signal_period : ℚ) + 1)
      let seed := ((valid_macd.take signal_period).map Prod.snd).sum / signal_period
      let seedIdx := (valid_macd.getD (signal_period - 1) (0, 0)).1
      (seedIdx, seed) :: signalAssignLoop k (valid_macd.drop signal_period) seed
    else []
  let signal_line := (List.range n).map (fun i => signal_assign.lookup i)
  let histogram := List.zipWith (fun a b => match a, b with
    | some x, some y => some (x - y)
    | _, _ => none) macd_line signal_line
  ⟨macd_line, signal_line, histogram⟩

/-! ## `scanner.py` : `_detect_signals` and `_score_and_reason` -/
/-- The `SignalSet` dictionary built by `_detect_signals` (its exact keys). -/

structure Signals where
  rsi_oversold : Bool
  macd_crossover : Bool
  sma20_cross : Bool
  rsi_rising_3d : Bool
  latest_rsi : Option ℚ
  latest_macd : Option ℚ
  latest_signal : Option ℚ
  latest_sma20 : Option ℚ
  latest_close : Option ℚ
deriving DecidableEq

/-- Last defined value of a series (the `for v in reversed(series)` scans). -/
def lastDefined (l : List (Option ℚ)) : Option ℚ :=
  l.reverse.findSome? id

/-- `scanner._detect_signals`. -/
def detect_signals (closes : List ℚ) (rsi_series : List (Option ℚ))
    (macd_result : MACDResult) (sma20_series : List (Option ℚ)) (lookback : ℕ) : Signals :=
  let n := closes.length
  let latest_rsi := (lastDefined rsi_series).map (fun v => pyRound v 2)
  let base : Signals :=
    { rsi_oversold := false
      macd_crossover := false
      sma20_cross := false
      rsi_rising_3d := false
      latest_rsi := latest_rsi
      latest_macd := (lastDefined macd_result.macd_line).map (fun v => pyRound v 4)
      latest_signal := (lastDefined macd_result.signal_line).map (fun v => pyRound v 4)
      latest_sma20 := (lastDefined sma20_series).map (fun v => pyRound v 2)
      latest_close := closes.getLast? }
  match latest_rsi with
  | none => base
  | some _ =>
    let recent_rsi := (pyTail rsi_series lookback).filterMap id
    let rsi_oversold := match listMin? recent_rsi with
      | some m => decide (m < 30)
      | none => false
    let ml := macd_result.macd_line
    let sl := macd_result.signal_line
    let idxs := List.range' (max 1 (n - lookback)) (n - max 1 (n - lookback))
    let macd_crossover := idxs.any (fun i =>
      match ml.getD i none, sl.getD i none, ml.getD (i - 1) none, sl.getD (i - 1) none with
      | some m1, some s1, some m0, some s0 => decide (m0 ≤ s0 ∧ s1 < m1)
      | _, _, _, _ => false)
    let sma20_cross := idxs.any (fun i =>
      match sma20_series.getD i none, sma20_series.getD (i - 1) none with
      | some s1, some s0 =>
          decide (closes.getD (i - 1) 0 ≤ s0 ∧ s1 < closes.getD i 0)
      | _, _ => false)
    let recent_rsi_vals := (pyTail rsi_series 4).filterMap id
    let rsi_rising_3d :=
      if 3 ≤ recent_rsi_vals.length then
        match recent_rsi_vals.drop (recent_rsi_vals.length - 3) with
        | [a, b, c] => decide (a < b ∧ b < c)
        | _ => false
      else false
    { base with
        rsi_oversold := rsi_oversold
        macd_crossover := macd_crossover
        sma20_cross := sma20_cross
        rsi_rising_3d := rsi_rising_3d }

/-- Text rendering of an optional number (Python's interpolation of
`signals["latest_rsi"]`; digit formatting abstracted at the `toString` level). -/
def optStr : Option ℚ → String
  | none => "None"
  | some v => toString v

/-- `scanner._score_and_reason`: `(score, recommended, reason)`. -/
def score_and_reason (signals : Signals) : ℚ × Bool × String :=
  if !signals.rsi_oversold then (0, false, "")
  else
    let has_confirmation :=
      signals.macd_crossover || signals.sma20_cross || signals.rsi_rising_3d
    if !has_confirmation then (0, false, "")
    else
      let rsi_val := signals.latest_rsi
      let reasons0 : List String := ["RSI(14)=" ++ optStr rsi_val ++ " (oversold)"]
      let score1 : ℚ := if signals.macd_crossover then 3 else 0
      let reasons1 := if signals.macd_crossover
        then reasons0 ++ ["bullish MACD crossover"] else reasons0
      let score2 := score1 + (if signals.sma20_cross then (2 : ℚ) else 0)
      let reasons2 := if signals.sma20_cross
        then reasons1 ++ ["close crossed above SMA20"] else reasons1
      let score3 := score2 + (if signals.rsi_rising_3d then (1 : ℚ) else 0)
      let reasons3 := if signals.rsi_rising_3d
        then reasons2 ++ ["RSI rising 3 consecutive days"] else reasons2
      let score4 := match rsi_val with
        | some rv => if 0 < min (30 - rv) 5 then score3 + min (30 - rv) 5 else score3
        | none => score3
      (pyRound score4 2, true, String.intercalate " + " reasons3)

/-- The oversold bonus actually added by the scorer: `min(30 − rsi, 5)` when
positive, else nothing (also nothing when the latest oscillator is absent). -/
def bonusOf : Option ℚ → ℚ
  | some rv => if 0 < min (30 - rv) 5 then min (30 - rv) 5 else 0
  | none => 0

/-- Modelled from the spec (§4.3, divergence rule), for comparison with the
source: compare the minimum close and the minimum defined indicator value in
the most recent lookback window against the same minimums in the immediately
preceding window of equal length; divergence is true iff price makes a lower
low while the indicator makes a higher low.  `scanner.py` contains no such
computation. -/
def specDivergence (closes : List ℚ) (indicator : List (Option ℚ)) (lookback : ℕ) : Bool :=
  let recentC := pyTail closes lookback
  let prevC := pyTail (closes.take (closes.length - lookback)) lookback
  let recentI := (pyTail indicator lookback).filterMap id
  let prevI := (pyTail (indicator.take (indicator.length - lookback)) lookback).filterMap id
  match listMin? recentC, listMin? prevC, listMin? recentI, listMin? prevI with
  | some rc, some pc, some ri, some pv => decide (rc < pc ∧ pv < ri)
  | _, _, _, _ => false

def closesC1 : List ℚ := [100, 99, 98, 97, 96, 95, 94, 93, 92, 91]

def rsiC1 : List (Option ℚ) :=
  [some 20, some 20, some 20, some 20, some 20,
   some 25, some 25, some 25, some 25, some 25]

def macdC1 : MACDResult :=
  ⟨List.replicate 10 none, List.replicate 10 none, List.replicate 10 none⟩

def smaC1 : List (Option ℚ) := List.replicate 10 none

/-! ## `google_finance.py` data containers and `scanner._process_symbol` -/
/-- `google_finance.PriceBar` (the date string is modelled as a day number). -/

structure PriceBar where
  date : ℤ
  close : ℚ
deriving DecidableEq

/-- `google_finance.FundamentalData`. -/
structure FundamentalData where
  symbol : String
  name : Option String
  cmp : Option ℚ
  pe : Option ℚ
  roce : Option ℚ
  bv : Option ℚ
  debt : Option ℚ
  industry : Option String
deriving DecidableEq

/-- Outcome of the concurrent fundamentals + price-history fetch feeding
`_process_symbol` (a raised exception is the `failure` case). -/
inductive FetchOutcome where
  | success (fund : FundamentalData) (price_bars : List PriceBar)
  | failure (msg : String)
deriving DecidableEq

/-- The per-symbol result dictionary of `_process_symbol`.  Keys absent from a
given path are modelled by the same defaults the persistence pass supplies via
`res.get(key, default)`; `signals = none` models the empty dict. -/
structure SymbolResult where
  symbol : String
  symbol_id : ℕ
  error : Option String
  status : String
  fundamentals : Option FundamentalData
  price_bars : Option (List PriceBar)
  closes : Option (List ℚ)
  rsi_series : Option (List (Option ℚ))
  macd_result : Option MACDResult
  sma20_series : Option (List (Option ℚ))
  signals : Option Signals
  score : ℚ
  recommended : Bool
  reason : String
deriving DecidableEq

/-- `scanner._process_symbol` (pure core; fetch outcome passed in). -/
def process_symbol (sym : String) (symbol_id : ℕ) (fetch : FetchOutcome) : SymbolResult :=
  match fetch with
  | .failure msg =>
      { symbol := sym, symbol_id := symbol_id, error := some msg, status := "error",
        fundamentals := none, price_bars := none, closes := none, rsi_series := none,
        macd_result := none, sma20_series := none, signals := none,
        score := 0, recommended := false, reason := "" }
  | .success fund bars =>
      if bars.length < 30 then
        { symbol := sym, symbol_id := symbol_id,
          error := some ("Insufficient price data (" ++ toString bars.length ++ " bars, need ≥30)"),
          status := "ignored", fundamentals := some fund, price_bars := some bars,
          closes := none, rsi_series := none, macd_result := none, sma20_series := none,
          signals := none, score := 0, recommended := false, reason := "Insufficient data" }
      else
        let closes := bars.map PriceBar.close
        let rsi_series := rsi closes 14
        let macd_result := macd closes 12 26 9
        let sma20_series := sma closes 20
        let sg := detect_signals closes rsi_series macd_result sma20_series 5
        let sr := score_and_reason sg
        { symbol := sym, symbol_id := symbol_id, error := none, status := "ok",
          fundamentals := some fund, price_bars := some bars, closes := some closes,
          rsi_series := some rsi_series, macd_result := some macd_result,
          sma20_series := some sma20_series, signals := some sg,
          score := sr.1, recommended := sr.2.1, reason := sr.2.2 }

/-! ## `main.py` persistence projections (Technical / Recommendation rows) -/
/-- One entry of the persisted MACD chart (`{date, macd?, signal?, histogram?}`,
kept only when some component is defined). -/

structure MacdChartEntry where
  date : ℤ
  macd : Option ℚ
  signal : Option ℚ
  histogram : Option ℚ
deriving DecidableEq

/-- Content of a persisted `Technical` row (JSON columns held structurally). -/
structure TechnicalRow where
  rsi14 : Option ℚ
  macd : Option ℚ
  macd_signal : Option ℚ
  sma20 : Option ℚ
  close : Option ℚ
  signals_json : Option Signals
  price_series_json : List PriceBar
  rsi_series_json : List (ℤ × ℚ)
  macd_series_json : List MacdChartEntry
deriving DecidableEq

/-- Content of a persisted `Recommendation` row. -/
structure RecommendationRow where
  recommended : Bool
  score : ℚ
  reason : String
deriving DecidableEq

/-- The `rsi_chart` built at persist time: `(date, round(rsi, 2))` for indices
where the series is defined (empty when either input list is empty). -/
def rsi_chart (price_bars : List PriceBar) (rsi_s : List (Option ℚ)) : List (ℤ × ℚ) :=
  if price_bars = [] ∨ rsi_s = [] then []
  else price_bars.enum.filterMap (fun ib =>
    (rsi_s.getD ib.1 none).map (fun v => (ib.2.date, pyRound v 2)))

/-- The `macd_chart` built at persist time. -/
def macd_chart (price_bars : List PriceBar) (macd_r : Option MACDResult) : List MacdChartEntry :=
  match macd_r with
  | none => []
  | some mr =>
      if price_bars = [] then []
      else price_bars.enum.filterMap (fun ib =>
        let e : MacdChartEntry :=
          { date := ib.2.date
            macd := (mr.macd_line.getD ib.1 none).map (fun v => pyRound v 4)
            signal := (mr.signal_line.getD ib.1 none).map (fun v => pyRound v 4)
            histogram := (mr.histogram.getD ib.1 none).map (fun v => pyRound v 4) }
        if e.macd = none ∧ e.signal = none ∧ e.histogram = none then none else some e)

/-- The `Technical` row written for a non-skipped result (`main.py` persist
pass): latest values come from the signals dict, charts from the series. -/
def persist_technical (res : SymbolResult) : TechnicalRow :=
  let signals := res.signals
  let price_bars := res.price_bars.getD []
  let rsi_s := res.rsi_series.getD []
  { rsi14 := signals.bind Signals.latest_rsi
    macd := signals.bind Signals.latest_macd
    macd_signal := signals.bind Signals.latest_signal
    sma20 := signals.bind Signals.latest_sma20
    close := signals.bind Signals.latest_close
    signals_json := signals
    price_series_json := price_bars
    rsi_series_json := rsi_chart price_bars rsi_s
    macd_series_json := macd_chart price_bars res.macd_result }

/-- The `Recommendation` row written for a non-skipped result. -/
def persist_recommendation (res : SymbolResult) : RecommendationRow :=
  ⟨res.recommended, res.score, res.reason⟩

/-- A concrete fundamentals record used by witnesses. -/
def fundX : FundamentalData :=
  ⟨"X", none, none, none, none, none, none, none⟩

/-- A concrete 29-bar price history (one bar short of the 30-bar threshold). -/
def bars29 : List PriceBar := List.replicate 29 ⟨0, 100⟩

/-! ## `main.py` : skip-set partition and verbatim replay (`run_scan_for_id`) -/
/-- A stored `Technical` row with its scan and its `computed_at` calendar day
(the column has a non-null default, so the day is always present). -/

structure TechnicalStored where
  scan_id : ℕ
  content : TechnicalRow
  computed_at_day : ℤ
deriving DecidableEq

/-- Content of a persisted `Fundamental` row. -/
structure FundamentalRow where
  name : Option String
  cmp : Option ℚ
  pe : Option ℚ
  roce : Option ℚ
  bv : Option ℚ
  debt : Option ℚ
  industry : Option String
deriving DecidableEq

/-- A stored `Fundamental` row with its scan and `fetched_at` calendar day. -/
structure FundamentalStored where
  scan_id : ℕ
  content : FundamentalRow
  fetched_at_day : ℤ
deriving DecidableEq

/-- `tech_today` check: the most recent Technical row was computed today. -/
def tech_today (tech : Option TechnicalStored) (today : ℤ) : Bool :=
  match tech with
  | some t => decide (t.computed_at_day = today)
  | none => false

/-- `fund_today` check: the most recent Fundamental row was fetched today. -/
def fund_today (fund : Option FundamentalStored) (today : ℤ) : Bool :=
  match fund with
  | some f => decide (f.fetched_at_day = today)
  | none => false

/-- The skip-set membership test (`if tech_today or fund_today`). -/
def is_skipped (tech : Option TechnicalStored) (fund : Option FundamentalStored)
    (today : ℤ) : Bool :=
  tech_today tech today || fund_today fund today

/-- The snapshot bundle built for a skipped symbol. -/
structure SkipRecord where
  fund_snapshot : Option FundamentalRow
  tech_snapshot : Option TechnicalRow
  rec_snapshot : Option RecommendationRow
deriving DecidableEq

/-- Building the skip snapshots: the prior Recommendation is looked up in the
scan of the most recent Technical row (else of the Fundamental row); the
Technical/Fundamental contents are copied verbatim.  (`scan_id` columns are
non-null and ids start at 1, so Python's truthiness test on them holds.) -/
def build_skip_record (tech : Option TechnicalStored) (fund : Option FundamentalStored)
    (recOf : ℕ → Option RecommendationRow) : SkipRecord :=
  let recSnap := match tech with
    | some t => recOf t.scan_id
    | none => match fund with
      | some f => recOf f.scan_id
      | none => none
  { fund_snapshot := fund.map FundamentalStored.content
    tech_snapshot := tech.map TechnicalStored.content
    rec_snapshot := recSnap }

/-- The rows written into the new scan for a skipped symbol. -/
structure SkipNewRows where
  log_status : String
  log_message : String
  fund : Option FundamentalRow
  tech : Option TechnicalRow
  rec_row : RecommendationRow
deriving DecidableEq

/-- Persisting a skipped symbol: a `skipped` ScanLog row, the copied
Fundamental/Technical contents (if present), and the copied Recommendation —
or the fallback row when no prior recommendation exists. -/
def persist_skip (sk : SkipRecord) : SkipNewRows :=
  { log_status := "skipped"
    log_message := "Already pulled today"
    fund := sk.fund_snapshot
    tech := sk.tech_snapshot
    rec_row := match sk.rec_snapshot with
      | some r => ⟨r.recommended, r.score, r.reason⟩
      | none => ⟨false, 0, "Skipped (already pulled today)"⟩ }

/-! ## `main.py` : `start_scan` mutual exclusion -/
/-- A `Scan` row (timestamps omitted; they are not used by the claims). -/

structure ScanRow where
  id : ℕ
  status : String
  error_message : Option String
deriving DecidableEq

/-- The persisted state: the six tables of `models.py`. -/
structure DBState where
  symbols : List (ℕ × String)
  scans : List ScanRow
  fundamentals : List (ℕ × ℕ × FundamentalRow)
  technicals : List (ℕ × ℕ × TechnicalRow)
  recommendations : List (ℕ × ℕ × RecommendationRow)
  scan_logs : List (ℕ × Option ℕ × String × String)
deriving DecidableEq

/-- Application state: the in-memory `_scan_running` flag plus the store. -/
structure AppState where
  scan_running : Bool
  db : DBState
deriving DecidableEq

/-- Response of `POST /api/scan/run`: HTTP 409 conflict, or the new scan id. -/
inductive StartScanResponse where
  | conflict
  | started (scan_id : ℕ)
deriving DecidableEq

/-- Autoincrement id for a new scan row. -/
def next_scan_id (db : DBState) : ℕ :=
  (db.scans.map ScanRow.id).foldr max 0 + 1

/-- `main.start_scan`: the `_scan_running` check raises HTTP 409 *before* any
row is created, so a rejected attempt leaves the state untouched; otherwise
the flag is set and a `running` Scan row is committed. -/
def start_scan (s : AppState) : StartScanResponse × AppState :=
  if s.scan_running then (.conflict, s)
  else
    let sid := next_scan_id s.db
    (.started sid,
     { scan_running := true
       db := { s.db with scans := s.db.scans ++ [⟨sid, "running", none⟩] } })

/-- A concrete Technical row content used by witnesses. -/
def techRowEx : TechnicalRow :=
  ⟨some 25, none, none, none, some 100, none, [], [], []⟩

/-- A concrete prior Recommendation row used by witnesses. -/
def recRowEx : RecommendationRow := ⟨true, 7, "RSI(14)=25 (oversold)"⟩

/-! ## `mock_data.py` : deterministic synthetic fallback -/
/-- Python `weekday()` on a day number (1970-01-01 = Thursday = 3). -/

def weekday (d : ℤ) : ℤ := (d + 3) % 7

/-- The nearest business day at or before `d` (the `while` loop of
`_business_days` skips at most the two weekend days). -/
def prevBusinessDay (d : ℤ) : ℤ :=
  if weekday d < 5 then d else if weekday d = 5 then d - 1 else d - 2

/-- Collect `n` business days walking backwards from `d`, newest first. -/
def collectBusinessDays : ℕ → ℤ → List ℤ
  | 0, _ => []
  | n + 1, d =>
      let b := prevBusinessDay d
      b :: collectBusinessDays n (b - 1)

/-- `mock_data._business_days`: `n` business-day dates ending at (or just
before) `endDay`, oldest first. -/
def business_days (n : ℕ) (endDay : ℤ) : List ℤ :=
  (collectBusinessDays n endDay).reverse

/-- One row of the `_FUNDAMENTALS` table. -/
structure MockInfo where
  name : Option String
  cmp : ℚ
  pe : ℚ
  roce : ℚ
  bv : ℚ
  debt : ℚ
  industry : String
deriving DecidableEq

/-- `mock_data._FUNDAMENTALS` with the `_DEFAULT_FUNDAMENTAL` fallback
(lookup key is the upper-cased symbol). -/
def mockFundamentalsTable (symbolUpper : String) : MockInfo :=
  if symbolUpper = "TCS" then
    ⟨some "Tata Consultancy Services", 3852.40, 28.54, 52.3, 285.20, 12000, "IT Services"⟩
  else if symbolUpper = "INFY" then
    ⟨some "Infosys Limited", 1523.75, 25.18, 36.82, 220.45, 3800, "IT Services"⟩
  else if symbolUpper = "NMDC" then
    ⟨some "NMDC Limited", 127.30, 8.42, 22.10, 95.60, 4200, "Mining & Minerals"⟩
  else if symbolUpper = "TECHM" then
    ⟨some "Tech Mahindra Limited", 1342.90, 32.05, 14.50, 380.10, 9100, "IT Services"⟩
  else if symbolUpper = "WIPRO" then
    ⟨some "Wipro Limited", 452.15, 22.78, 18.92, 130.80, 6200, "IT Services"⟩
  else
    ⟨none, 500, 18, 15, 120, 2500, "General"⟩

/-- `mock_data.mock_fundamentals`: table lookup (unknown symbols get
"SYM (mock)" as name); a pure function of the symbol alone. -/
def mock_fundamentals (symbol : String) : FundamentalData :=
  let info := mockFundamentalsTable symbol.toUpper
  let nm := match info.name with
    | none => symbol ++ " (mock)"
    | some x => x
  ⟨symbol, some nm, some info.cmp, some info.pe, some info.roce,
    some info.bv, some info.debt, some info.industry⟩

/-- The GBM append loop of `_generate_normal_series`: `k` remaining appends,
`t` the next RNG draw index, `last` the running last price. -/
def gen_walk (noise : ℕ → ℚ) (vol drift : ℚ) : ℕ → ℕ → ℚ → List ℚ
  | _, 0, _ => []
  | t, k + 1, last =>
      let ret := drift + vol * noise t
      let nxt := pyRound (last * (1 + ret)) 2
      nxt :: gen_walk noise vol drift (t + 1) k nxt

/-- `mock_data._generate_normal_series` (consumes `n - 1` draws from `t0`). -/
def generate_normal_series (noise : ℕ → ℚ) (t0 : ℕ) (base_price : ℚ) (n : ℕ)
    (daily_vol drift : ℚ) : List ℚ :=
  base_price :: gen_walk noise daily_vol drift t0 (n - 1) base_price

/-- Phase-2 decline loop of `_generate_oversold_recovery`. -/
def dip_loop (noise : ℕ → ℚ) (daily_drop : ℚ) : ℕ → ℕ → ℚ → List ℚ
  | _, 0, _ => []
  | t, k + 1, last =>
      let nois := noise t * (daily_drop * 0.15)
      let nxt := pyRound (last - daily_drop + nois) 2
      nxt :: dip_loop noise daily_drop (t + 1) k nxt

/-- Phase-3 accelerating-bounce loop of `_generate_oversold_recovery`
(`i` is the loop counter driving the acceleration factor). -/
def bounce_loop (noise : ℕ → ℚ) (daily_bounce : ℚ) (recovery_days : ℕ) :
    ℕ → ℕ → ℕ → ℚ → List ℚ
  | _, _, 0, _ => []
  | i, t, k + 1, last =>
      let factor : ℚ := 1 + ((i : ℚ) / (recovery_days : ℚ)) * 0.5
      let nois := noise t * (daily_bounce * 0.2)
      let nxt := pyRound (last + daily_bounce * factor + nois) 2
      nxt :: bounce_loop noise daily_bounce recovery_days (i + 1) (t + 1) k nxt

/-- The `while len(prices) < n` padding loop. -/
def pad_loop (noise : ℕ → ℚ) : ℕ → ℕ → List ℚ → List ℚ
  | _, 0, prices => prices
  | t, k + 1, prices =>
      let last := (prices.getLast?).getD 0
      pad_loop noise (t + 1) k (prices ++ [pyRound (last * (1 + noise t * 0.005)) 2])

/-- `mock_data._generate_oversold_recovery`: gentle uptrend, sharp decline,
bounce, then pad/truncate to exactly `n` bars. -/
def generate_oversold_recovery (noise : ℕ → ℚ) (t0 : ℕ) (base_price : ℚ) (n : ℕ)
    (dip_start_frac dip_depth : ℚ) (recovery_days : ℕ) : List ℚ :=
  let dip_idx : ℕ := (⌊(n : ℚ) * dip_start_frac⌋).toNat
  let normal_len := dip_idx
  let dip_len0 : ℤ := (n : ℤ) - dip_idx - recovery_days
  let dip_len : ℤ := if dip_len0 < 5 then 5 else dip_len0
  let recovery : ℤ := if dip_len0 < 5 then (n : ℤ) - dip_idx - dip_len else (recovery_days : ℤ)
  let prices1 := generate_normal_series noise t0 base_price normal_len 0.008 0.0003
  let t1 := t0 + (normal_len - 1)
  let peak := (prices1.getLast?).getD 0
  let target_bottom := peak * (1 - dip_depth)
  let daily_drop := (peak - target_bottom) / (dip_len : ℚ)
  let prices2 := dip_loop noise daily_drop t1 dip_len.toNat peak
  let t2 := t1 + dip_len.toNat
  let bottom := (((prices1 ++ prices2).getLast?)).getD 0
  let daily_bounce := (peak - bottom) * 0.35 / (recovery : ℚ)
  let prices3 := bounce_loop noise daily_bounce recovery.toNat 0 t2 recovery.toNat bottom
  let t3 := t2 + recovery.toNat
  let prices := prices1 ++ prices2 ++ prices3
  (pad_loop noise t3 (n - prices.length) prices).take n

/-- The close-price branch of `mock_price_history`: NMDC and WIPRO get
oversold-recovery shapes, everything else a normal walk; the RNG stream is
keyed by the raw symbol string, the base price by the upper-cased symbol. -/
def mock_closes (noise : String → ℕ → ℚ) (symbol : String) (n : ℕ) : List ℚ :=
  let info := mockFundamentalsTable symbol.toUpper
  let base_price := info.cmp * 0.92
  if symbol.toUpper = "NMDC" then
    generate_oversold_recovery (noise symbol) 0 base_price n 0.78 0.22 6
  else if symbol.toUpper = "WIPRO" then
    generate_oversold_recovery (noise symbol) 0 base_price n 0.82 0.16 10
  else
    generate_normal_series (noise symbol) 0 base_price n 0.012 0.0002

/-- `mock_data.mock_price_history`: `max(60, months*22)` bars, dated on the
business days ending at the current UTC day (`todayDay` makes the hidden
`datetime.utcnow()` input explicit). -/
def mock_price_history (noise : String → ℕ → ℚ) (symbol : String) (months : ℕ)
    (todayDay : ℤ) : List PriceBar :=
  let n := if months * 22 < 60 then 60 else months * 22
  let dates := business_days n todayDay
  ((dates.zip (mock_closes noise symbol n)).map (fun dc => PriceBar.mk dc.1 dc.2))

/-! ## Theorems -/

lemma sum_take_succ (l : List ℚ) (n : ℕ) (h : n < l.length) :
    (l.take (n + 1)).sum = (l.take n).sum + l.getD n 0 := by
  rw [List.take_succ]
  rw [List.sum_append]
  congr 1
  rw [List.getElem?_eq_getElem h]
  simp [List.getD, List.getElem?_eq_getElem h]

lemma getD_drop (l : List ℚ) (m k : ℕ) :
    (l.drop m).getD k 0 = l.getD (m + k) 0 := by
  simp [List.getD, List.getElem?_drop]

/-- Sliding-window identity: the window sum at `i` equals the window sum at
`i - 1` plus the newest close minus the close that dropped out. -/
lemma winSum_slide (closes : List ℚ) (p i : ℕ) (hp : 1 ≤ p) (hpi : p ≤ i)
    (hi : i < closes.length) :
    winSum closes p i = winSum closes p (i - 1) + closes.getD i 0 - closes.getD (i - p) 0 := by
  obtain ⟨a, rfl⟩ : ∃ a, i = a + p := ⟨i - p, (Nat.sub_add_cancel hpi).symm⟩
  have ha : a < closes.length := lt_of_le_of_lt (Nat.le_add_right a p) hi
  have h1 : a + p + 1 - p = a + 1 := by omega
  have h2 : a + p - 1 + 1 - p = a := by omega
  have h3 : a + p - p = a := by omega
  unfold winSum
  rw [h1, h2, h3]
  have hdrop : closes.drop a = closes.getD a 0 :: closes.drop (a + 1) := by
    rw [List.drop_eq_getElem_cons ha]
    simp [List.getD, List.getElem?_eq_getElem ha]
  rw [hdrop]
  have hlen : p ≤ (closes.drop (a + 1)).length := by
    rw [List.length_drop]; omega
  obtain ⟨q, hpq⟩ : ∃ q, p = q + 1 := ⟨p - 1, by omega⟩
  subst hpq
  rw [List.take_succ_cons]
  rw [List.sum_cons]
  have hql : q < (closes.drop (a + 1)).length := by omega
  rw [sum_take_succ _ q hql]
  rw [getD_drop]
  have h5 : a + (q + 1) = a + 1 + q := by omega
  rw [h5]
  ring

/-- Characterization of the running-sum loop: starting at index `i ≥ p` with
the correct window sum for index `i - 1`, position `j` of the emitted list is
the trailing-window mean at overall index `i + j`. -/
lemma smaFrom_getElem? (closes : List ℚ) (p : ℕ) (hp : 1 ≤ p) :
    ∀ i wsum, p ≤ i → wsum = winSum closes p (i - 1) →
    ∀ j, (smaFrom closes p i wsum)[j]? =
      if i + j < closes.length then some (some (winSum closes p (i + j) / p)) else none := by
  intro i
  induction' hnum : closes.length - i using Nat.strong_induction_on with n ih generalizing i
  intro wsum hpi hw j
  rw [smaFrom]
  by_cases h : i < closes.length
  · simp only [dif_pos h]
    have hws : wsum + closes.getD i 0 - closes.getD (i - p) 0 = winSum closes p i := by
      rw [hw, winSum_slide closes p i hp hpi h]
    cases j with
    | zero =>
        simp only [List.getElem?_cons_zero]
        rw [if_pos (by omega : i + 0 < closes.length)]
        rw [hws]
        simp
    | succ j' =>
        simp only [List.getElem?_cons_succ]
        rw [hws]
        have hrec := ih (closes.length - (i + 1)) (by omega) (i + 1)
          rfl (winSum closes p i) (by omega) rfl j'
        rw [hrec]
        have : i + 1 + j' = i + (j' + 1) := by omega
        rw [this]
  · simp only [dif_neg h]
    rw [if_neg (by omega)]
    simp

lemma smaFrom_length (closes : List ℚ) (p : ℕ) :
    ∀ i wsum, (smaFrom closes p i wsum).length = closes.length - i := by
  intro i
  induction' hnum : closes.length - i using Nat.strong_induction_on with n ih generalizing i
  intro wsum
  rw [smaFrom]
  by_cases h : i < closes.length
  · simp only [dif_pos h, List.length_cons]
    rw [ih (closes.length - (i + 1)) (by omega) (i + 1) rfl]
    omega
  · simp only [dif_neg h, List.length_nil]
    omega

lemma sma_length (closes : List ℚ) (p : ℕ) (hp : 1 ≤ p) :
    (sma closes p).length = closes.length := by
  unfold sma
  by_cases h : closes.length < p
  · simp [h]
  · simp only [if_neg h]
    simp only [List.length_append, List.length_replicate, List.length_cons, smaFrom_length]
    omega

/-- The simple moving average is defined exactly at indices `≥ p − 1`, where it
equals the brute-force trailing-window mean. -/
theorem sma_getD (closes : List ℚ) (p : ℕ) (hp : 1 ≤ p) (i : ℕ) (hi : i < closes.length) :
    (sma closes p).getD i none =
      if p ≤ i + 1 then some (((closes.drop (i + 1 - p)).take p).sum / p) else none := by
  rw [List.getD_eq_getElem?_getD]
  unfold sma
  by_cases h : closes.length < p
  · rw [if_pos h]
    rw [if_neg (by omega)]
    simp [List.getElem?_replicate, hi]
  · rw [if_neg h]
    by_cases hip : p ≤ i + 1
    · rw [if_pos hip]
      by_cases hieq : i = p - 1
      · subst hieq
        rw [List.getElem?_append_right (by simp)]
        simp only [List.length_replicate]
        have h0 : p - 1 - (p - 1) = 0 := by omega
        rw [h0]
        simp only [List.getElem?_cons_zero]
        have h1 : p - 1 + 1 - p = 0 := by omega
        rw [h1]
        simp
      · have hig : p ≤ i := by omega
        rw [List.getElem?_append_right (by simp; omega)]
        simp only [List.length_replicate]
        have hidx : i - (p - 1) = (i - p) + 1 := by omega
        rw [hidx]
        simp only [List.getElem?_cons_succ]
        have hseed : (List.take p closes).sum = winSum closes p (p - 1) := by
          unfold winSum
          have h0 : p - 1 + 1 - p = 0 := by omega
          rw [h0, List.drop_zero]
        rw [smaFrom_getElem? closes p hp p _ le_rfl hseed (i - p)]
        rw [if_pos (by omega : p + (i - p) < closes.length)]
        have h2 : p + (i - p) = i := by omega
        rw [h2]
        rfl
    · rw [if_neg hip]
      rw [List.getElem?_append]
      rw [if_pos (by simp; omega)]
      have h3 : i < p - 1 := by omega
      simp [List.getElem?_replicate, h3]

lemma rsiVal_bounds (ag al : ℚ) (hag : 0 ≤ ag) (hal : 0 ≤ al) :
    0 ≤ rsiVal ag al ∧ rsiVal ag al ≤ 100 ∧ (rsiVal ag al = 100 ↔ al = 0) := by
  unfold rsiVal
  by_cases h : al = 0
  · simp [h]
  · have hal' : 0 < al := lt_of_le_of_ne hal (Ne.symm h)
    have hrs : 0 ≤ ag / al := div_nonneg hag hal'.le
    rw [if_neg h]
    have h1 : (1 : ℚ) ≤ 1 + ag / al := by linarith
    have h1' : (0 : ℚ) < 1 + ag / al := by linarith
    have hqpos : 0 < 100 / (1 + ag / al) := by positivity
    have hqle : 100 / (1 + ag / al) ≤ 100 := by
      rw [div_le_iff₀ h1']
      nlinarith
    refine ⟨by linarith, by linarith, ?_⟩
    constructor
    · intro hcon
      exfalso
      have : 100 / (1 + ag / al) = 0 := by linarith
      linarith
    · intro hcon
      exact absurd hcon h

lemma diffs_nonneg (closes : List ℚ) :
    ∀ gl ∈ diffs closes, 0 ≤ gl.1 ∧ 0 ≤ gl.2 := by
  intro gl hgl
  unfold diffs at hgl
  simp only [List.mem_map] at hgl
  obtain ⟨ab, _, rfl⟩ := hgl
  exact ⟨le_max_right _ _, le_max_right _ _⟩

lemma sum_nonneg_of_mem {l : List ℚ} (h : ∀ x ∈ l, 0 ≤ x) : 0 ≤ l.sum :=
  List.sum_nonneg h

lemma rsiStepPairs_invariant (period : ℕ) (hp : 1 ≤ period) :
    ∀ (gl : List (ℚ × ℚ)), (∀ x ∈ gl, 0 ≤ x.1 ∧ 0 ≤ x.2) →
    ∀ ag al, 0 ≤ ag → 0 ≤ al →
    ∀ v loss, (v, loss) ∈ rsiStepPairs period gl ag al →
      0 ≤ v ∧ v ≤ 100 ∧ (v = 100 ↔ loss = 0) := by
  intro gl
  induction gl with
  | nil => intro _ ag al _ _ v loss h; simp [rsiStepPairs] at h
  | cons hd tl ih =>
      intro hmem ag al hag hal v loss h
      have hper : (0 : ℚ) ≤ (period : ℚ) - 1 := by
        have : (1 : ℚ) ≤ (period : ℚ) := by exact_mod_cast hp
        linarith
      have hperpos : (0 : ℚ) < (period : ℚ) := by exact_mod_cast hp
      have hhd := hmem hd (List.mem_cons_self hd tl)
      have hag2 : 0 ≤ (ag * ((period : ℚ) - 1) + hd.1) / period :=
        div_nonneg (by nlinarith [hhd.1]) hperpos.le
      have hal2 : 0 ≤ (al * ((period : ℚ) - 1) + hd.2) / period :=
        div_nonneg (by nlinarith [hhd.2]) hperpos.le
      simp only [rsiStepPairs, List.mem_cons] at h
      rcases h with h | h
      · have := rsiVal_bounds _ _ hag2 hal2
        have hv : v = rsiVal ((ag * ((period : ℚ) - 1) + hd.1) / period)
            ((al * ((period : ℚ) - 1) + hd.2) / period) := congrArg Prod.fst h
        have hl : loss = (al * ((period : ℚ) - 1) + hd.2) / period := congrArg Prod.snd h
        rw [hv, hl]
        exact this
      · exact ih (fun x hx => hmem x (List.mem_cons_of_mem hd hx)) _ _ hag2 hal2 v loss h

/-- Every defined oscillator entry lies in `[0, 100]`, and equals `100` exactly
when its trailing Wilder-smoothed average loss is `0`; the plain `rsi` series
is the value component. -/
theorem rsi_bounds (closes : List ℚ) (period : ℕ) (hp : 1 ≤ period) (i : ℕ) (v al : ℚ)
    (h : (rsiWithLoss closes period).getD i none = some (v, al)) :
    (rsi closes period).getD i none = some v ∧
      0 ≤ v ∧ v ≤ 100 ∧ (v = 100 ↔ al = 0) := by
  have hmem : (v, al) ∈ (rsiWithLoss closes period).filterMap id := by
    rw [List.getD_eq_getElem?_getD] at h
    have : (rsiWithLoss closes period)[i]? = some (some (v, al)) := by
      cases hx : (rsiWithLoss closes period)[i]? with
      | none => rw [hx] at h; simp at h
      | some o => rw [hx] at h; simp at h; rw [h]
    exact List.mem_filterMap.mpr
      ⟨some (v, al), List.get?_mem (by rw [List.get?_eq_getElem?]; exact this), rfl⟩
  have hbounds : 0 ≤ v ∧ v ≤ 100 ∧ (v = 100 ↔ al = 0) := by
    unfold rsiWithLoss at hmem
    by_cases hlen : closes.length ≤ period
    · rw [if_pos hlen] at hmem
      exfalso
      have := List.mem_filterMap.mp hmem
      obtain ⟨o, ho, hoo⟩ := this
      have := List.eq_of_mem_replicate ho
      rw [this] at hoo
      simp at hoo
    · rw [if_neg hlen] at hmem
      have hmem2 := List.mem_filterMap.mp hmem
      obtain ⟨o, ho, hoo⟩ := hmem2
      simp only [id] at hoo
      subst hoo
      rw [List.mem_append] at ho
      rcases ho with ho | ho
      · exfalso
        have := List.eq_of_mem_replicate ho
        simp at this
      · rw [List.mem_map] at ho
        obtain ⟨pr, hpr, hpr2⟩ := ho
        have hpreq : pr = (v, al) := by
          injection hpr2
        subst hpreq
        set gl := diffs closes with hgl
        have hglnn : ∀ x ∈ gl, 0 ≤ x.1 ∧ 0 ≤ x.2 := diffs_nonneg closes
        have hperpos : (0 : ℚ) < (period : ℚ) := by exact_mod_cast hp
        have hagnn : 0 ≤ ((gl.take period).map Prod.fst).sum / (period : ℚ) := by
          apply div_nonneg _ hperpos.le
          apply sum_nonneg_of_mem
          intro x hx
          rw [List.mem_map] at hx
          obtain ⟨pr2, hpr2m, rfl⟩ := hx
          exact (hglnn pr2 (List.mem_of_mem_take hpr2m)).1
        have halnn : 0 ≤ ((gl.take period).map Prod.snd).sum / (period : ℚ) := by
          apply div_nonneg _ hperpos.le
          apply sum_nonneg_of_mem
          intro x hx
          rw [List.mem_map] at hx
          obtain ⟨pr2, hpr2m, rfl⟩ := hx
          exact (hglnn pr2 (List.mem_of_mem_take hpr2m)).2
        rw [List.mem_cons] at hpr
        rcases hpr with hpr | hpr
        · have hv : v = rsiVal (((gl.take period).map Prod.fst).sum / period)
              (((gl.take period).map Prod.snd).sum / period) := congrArg Prod.fst hpr
          have hl : al = ((gl.take period).map Prod.snd).sum / period := congrArg Prod.snd hpr
          rw [hv, hl]
          exact rsiVal_bounds _ _ hagnn halnn
        · exact rsiStepPairs_invariant period hp (gl.drop period)
            (fun x hx => hglnn x (List.mem_of_mem_drop hx)) _ _ hagnn halnn v al hpr
  refine ⟨?_, hbounds⟩
  unfold rsi
  rw [List.getD_eq_getElem?_getD] at h ⊢
  rw [List.getElem?_map]
  cases hx : (rsiWithLoss closes period)[i]? with
  | none => rw [hx] at h; simp at h
  | some o =>
      rw [hx] at h
      simp at h
      rw [h]
      rfl

lemma bonusOf_nonneg (lr : Option ℚ) : 0 ≤ bonusOf lr := by
  cases lr with
  | none => simp [bonusOf]
  | some rv =>
      simp only [bonusOf]
      split_ifs with h
      · exact h.le
      · exact le_refl 0

lemma pyRoundInt_ge_floor (q : ℚ) : ⌊q⌋ ≤ pyRoundInt q := by
  unfold pyRoundInt
  split_ifs <;> omega

lemma pyRound_ge_one (q : ℚ) (nd : ℕ) (h : 1 ≤ q) : 1 ≤ pyRound q nd := by
  unfold pyRound
  have hpow : (0 : ℚ) < 10 ^ nd := by positivity
  rw [le_div_iff₀ hpow, one_mul]
  have h1 : (10 : ℚ) ^ nd ≤ q * 10 ^ nd := le_mul_of_one_le_left hpow.le h
  have h2 : ((10 ^ nd : ℤ) : ℚ) ≤ q * 10 ^ nd := by push_cast; exact h1
  have h3 : (10 ^ nd : ℤ) ≤ ⌊q * 10 ^ nd⌋ := Int.le_floor.mpr h2
  have h4 := pyRoundInt_ge_floor (q * 10 ^ nd)
  calc ((10 : ℚ) ^ nd) = ((10 ^ nd : ℤ) : ℚ) := by push_cast; ring
    _ ≤ ((pyRoundInt (q * 10 ^ nd) : ℤ) : ℚ) := by exact_mod_cast le_trans h3 h4

lemma score_and_reason_not_recommended (s : Signals)
    (h : (score_and_reason s).2.1 = false) :
    (score_and_reason s).1 = 0 ∧ (score_and_reason s).2.2 = "" := by
  unfold score_and_reason at h ⊢
  by_cases h1 : s.rsi_oversold
  · by_cases h2 : s.macd_crossover || s.sma20_cross || s.rsi_rising_3d
    · simp [h1, h2] at h
    · simp [h1, h2]
  · simp [h1]

/-- C9: for every SignalSet, whenever the scorer returns `recommended = true`
the score is at least 1: a confirmation flag is required, each adds ≥ +1, and
the oversold bonus is added only when positive. -/
theorem recommended_score_at_least_one (s : Signals)
    (h : (score_and_reason s).2.1 = true) : 1 ≤ (score_and_reason s).1 := by
  obtain ⟨ro, mc, sc, rr, lr, lm, ls, lsm, lc⟩ := s
  by_cases h1 : ro = true
  · by_cases h2 : (mc || sc || rr) = true
    · have hred : (score_and_reason ⟨ro, mc, sc, rr, lr, lm, ls, lsm, lc⟩).1 = pyRound
          ((if mc then (3 : ℚ) else 0) +
            (if sc then (2 : ℚ) else 0) +
            (if rr then (1 : ℚ) else 0) + bonusOf lr) 2 := by
        simp only [score_and_reason, h1, h2, Bool.not_true, Bool.false_eq_true,
          if_false]
        cases lr with
        | none => simp [bonusOf]
        | some rv =>
            simp only [bonusOf]
            split_ifs <;> ring_nf
      rw [hred]
      apply pyRound_ge_one
      simp only [Bool.or_eq_true] at h2
      have hb := bonusOf_nonneg lr
      split_ifs <;> first
        | linarith
        | (exfalso; rcases h2 with (h2 | h2) | h2 <;> simp_all)
    · exfalso
      simp [score_and_reason, h1, h2] at h
  · exfalso
    simp [score_and_reason, h1] at h

/-- Witness for `recommended_score_at_least_one` at a concrete SignalSet. -/
theorem recommended_score_at_least_one_witness :
    1 ≤ (score_and_reason
      ⟨true, true, false, false, some 25, none, none, none, some 100⟩).1 :=
  recommended_score_at_least_one
    ⟨true, true, false, false, some 25, none, none, none, some 100⟩ (by decide)

/-- C1 (amended): the recommendation decision uses exactly the three
confirmations `macd_crossover`, `sma20_cross`, `rsi_rising_3d` (no divergence
flags exist), and the recommended score is the fixed weights 3/2/1 of those
flags plus the positive-capped oversold bonus — nothing else contributes. -/
theorem scorer_uses_exactly_three_confirmations (s : Signals) :
    (score_and_reason s).2.1 =
      (s.rsi_oversold && (s.macd_crossover || s.sma20_cross || s.rsi_rising_3d)) ∧
    ((score_and_reason s).2.1 = true →
      (score_and_reason s).1 = pyRound
        ((if s.macd_crossover then (3 : ℚ) else 0) +
          (if s.sma20_cross then (2 : ℚ) else 0) +
          (if s.rsi_rising_3d then (1 : ℚ) else 0) + bonusOf s.latest_rsi) 2) := by
  obtain ⟨ro, mc, sc, rr, lr, lm, ls, lsm, lc⟩ := s
  by_cases h1 : ro = true
  · by_cases h2 : (mc || sc || rr) = true
    · constructor
      · simp [score_and_reason, h1, h2]
      · intro _
        simp only [score_and_reason, h1, h2, Bool.not_true, Bool.false_eq_true,
          if_false]
        cases lr with
        | none => simp [bonusOf]
        | some rv =>
            simp only [bonusOf]
            split_ifs <;> ring_nf
    · constructor
      · simp [score_and_reason, h1, h2]
      · intro hcon
        exfalso
        simp [score_and_reason, h1, h2] at hcon
  · constructor
    · simp [score_and_reason, h1]
    · intro hcon
      exfalso
      simp [score_and_reason, h1] at hcon

/-- Witness for `scorer_uses_exactly_three_confirmations` at a concrete input. -/
theorem scorer_uses_exactly_three_confirmations_witness :
    (score_and_reason
      ⟨true, false, true, false, some 28, none, none, none, some 50⟩).1 = pyRound
        ((if false then (3 : ℚ) else 0) + (if true then (2 : ℚ) else 0) +
          (if false then (1 : ℚ) else 0) + bonusOf (some 28)) 2 :=
  (scorer_uses_exactly_three_confirmations
    ⟨true, false, true, false, some 28, none, none, none, some 50⟩).2 (by decide)

/-- C1 counterexample: a concrete input on which the spec's oscillator
divergence fires (price lower low, oscillator higher low) and the detector
reports oversold, yet no divergence flag exists and the scorer does not
recommend (score 0) — so divergence is not computed, does not qualify a
recommendation, and contributes no score. -/
theorem divergence_not_a_confirmation_cx :
    specDivergence closesC1 rsiC1 5 = true ∧
    (detect_signals closesC1 rsiC1 macdC1 smaC1 5).rsi_oversold = true ∧
    (detect_signals closesC1 rsiC1 macdC1 smaC1 5).macd_crossover = false ∧
    (detect_signals closesC1 rsiC1 macdC1 smaC1 5).sma20_cross = false ∧
    (detect_signals closesC1 rsiC1 macdC1 smaC1 5).rsi_rising_3d = false ∧
    (score_and_reason (detect_signals closesC1 rsiC1 macdC1 smaC1 5)).2.1 = false ∧
    (score_and_reason (detect_signals closesC1 rsiC1 macdC1 smaC1 5)).1 = 0 := by
  decide

/-- C7: fewer than 30 price bars ⇒ status `ignored`, message citing
"need ≥30", no indicator computation (all series absent, persisted Technical
row has no defined indicator values and empty charts), `recommended = false`,
score 0. -/
theorem ignored_under_30_bars (sym : String) (sid : ℕ) (fund : FundamentalData)
    (bars : List PriceBar) (h : bars.length < 30) :
    (process_symbol sym sid (.success fund bars)).status = "ignored" ∧
    (process_symbol sym sid (.success fund bars)).error =
      some ("Insufficient price data (" ++ toString bars.length ++ " bars, need ≥30)") ∧
    (process_symbol sym sid (.success fund bars)).recommended = false ∧
    (process_symbol sym sid (.success fund bars)).score = 0 ∧
    (process_symbol sym sid (.success fund bars)).signals = none ∧
    (process_symbol sym sid (.success fund bars)).rsi_series = none ∧
    (process_symbol sym sid (.success fund bars)).macd_result = none ∧
    (process_symbol sym sid (.success fund bars)).sma20_series = none ∧
    (persist_technical (process_symbol sym sid (.success fund bars))).rsi14 = none ∧
    (persist_technical (process_symbol sym sid (.success fund bars))).macd = none ∧
    (persist_technical (process_symbol sym sid (.success fund bars))).macd_signal = none ∧
    (persist_technical (process_symbol sym sid (.success fund bars))).sma20 = none ∧
    (persist_technical (process_symbol sym sid (.success fund bars))).close = none ∧
    (persist_technical (process_symbol sym sid (.success fund bars))).rsi_series_json = [] ∧
    (persist_technical (process_symbol sym sid (.success fund bars))).macd_series_json = [] := by
  simp [process_symbol, h, persist_technical, rsi_chart, macd_chart]

/-- Witness for `ignored_under_30_bars` at a concrete 29-bar history. -/
theorem ignored_under_30_bars_witness :
    bars29.length < 30 ∧
    (process_symbol "X" 1 (.success fundX bars29)).status = "ignored" :=
  ⟨by decide, (ignored_under_30_bars "X" 1 fundX bars29 (by decide)).1⟩

/-- C6 counterexample: a symbol ignored for insufficient data yields
`recommended = false` with the non-empty reason "Insufficient data", so a
not-recommended row need not have an empty reason string. -/
theorem ignored_reason_nonempty_cx :
    (process_symbol "X" 1 (.success fundX bars29)).recommended = false ∧
    (process_symbol "X" 1 (.success fundX bars29)).score = 0 ∧
    (process_symbol "X" 1 (.success fundX bars29)).reason = "Insufficient data" ∧
    (process_symbol "X" 1 (.success fundX bars29)).reason ≠ "" := by
  decide

/-- C6 (amended): every not-recommended pipeline row has score 0; the reason
is empty for evaluated (`ok`) and errored rows, is "Insufficient data" for
ignored rows, and is "Skipped (already pulled today)" for skipped rows that
have no prior recommendation to replay. -/
theorem not_recommended_score_zero (sym : String) (sid : ℕ) (fetch : FetchOutcome)
    (h : (process_symbol sym sid fetch).recommended = false) :
    (process_symbol sym sid fetch).score = 0 ∧
    ((process_symbol sym sid fetch).status = "ok" →
      (process_symbol sym sid fetch).reason = "") ∧
    ((process_symbol sym sid fetch).status = "error" →
      (process_symbol sym sid fetch).reason = "") ∧
    ((process_symbol sym sid fetch).status = "ignored" →
      (process_symbol sym sid fetch).reason = "Insufficient data") ∧
    ∀ sk : SkipRecord, sk.rec_snapshot = none →
      (persist_skip sk).rec_row = ⟨false, 0, "Skipped (already pulled today)"⟩ := by
  refine ⟨?_, ?_, ?_, ?_, ?_⟩
  case _ =>
    cases fetch with
    | failure msg => rfl
    | success fund bars =>
        by_cases hlen : bars.length < 30
        · simp [process_symbol, hlen]
        · simp only [process_symbol, hlen, if_false] at h ⊢
          exact (score_and_reason_not_recommended _ h).1
  case _ =>
    intro hst
    cases fetch with
    | failure msg => simp [process_symbol] at hst
    | success fund bars =>
        by_cases hlen : bars.length < 30
        · simp [process_symbol, hlen] at hst
        · simp only [process_symbol, hlen, if_false] at h ⊢
          exact (score_and_reason_not_recommended _ h).2
  case _ =>
    intro hst
    cases fetch with
    | failure msg => rfl
    | success fund bars =>
        by_cases hlen : bars.length < 30
        · simp [process_symbol, hlen] at hst
        · simp [process_symbol, hlen] at hst
  case _ =>
    intro hst
    cases fetch with
    | failure msg => simp [process_symbol] at hst
    | success fund bars =>
        by_cases hlen : bars.length < 30
        · simp [process_symbol, hlen]
        · simp [process_symbol, hlen] at hst
  case _ =>
    intro sk hsk
    simp [persist_skip, hsk]

/-- Witness for `not_recommended_score_zero` at the 29-bar input. -/
theorem not_recommended_score_zero_witness :
    (process_symbol "Y" 2 (.success fundX bars29)).score = 0 :=
  (not_recommended_score_zero "Y" 2 (.success fundX bars29) (by decide)).1

/-- C5: a symbol whose most recent Technical row was computed today (or whose
most recent Fundamental row was fetched today) is placed in the skip set, and
the rows persisted into the new scan copy the Technical,
Recommendation and Fundamental contents of the prior scan verbatim, with a `skipped` log row. -/
theorem skip_replays_verbatim (t : TechnicalStored) (fund : Option FundamentalStored)
    (recOf : ℕ → Option RecommendationRow) (today : ℤ) (r : RecommendationRow)
    (hday : t.computed_at_day = today ∨ ∃ f, fund = some f ∧ f.fetched_at_day = today)
    (hrec : recOf t.scan_id = some r) :
    is_skipped (some t) fund today = true ∧
    (persist_skip (build_skip_record (some t) fund recOf)).tech = some t.content ∧
    (persist_skip (build_skip_record (some t) fund recOf)).rec_row = r ∧
    (persist_skip (build_skip_record (some t) fund recOf)).fund =
      fund.map FundamentalStored.content ∧
    (persist_skip (build_skip_record (some t) fund recOf)).log_status = "skipped" := by
  refine ⟨?_, by simp [persist_skip, build_skip_record], ?_,
    by simp [persist_skip, build_skip_record], rfl⟩
  · unfold is_skipped tech_today fund_today
    rcases hday with h | ⟨f, rfl, hf⟩
    · simp [h]
    · simp [hf]
  · simp [persist_skip, build_skip_record, hrec]

/-- Witness for `skip_replays_verbatim` at concrete stored rows. -/
theorem skip_replays_verbatim_witness :
    is_skipped (some ⟨1, techRowEx, 20000⟩) none 20000 = true ∧
    (persist_skip (build_skip_record (some ⟨1, techRowEx, 20000⟩) none
      (fun i => if i = 1 then some recRowEx else none))).tech = some techRowEx :=
  ⟨(skip_replays_verbatim ⟨1, techRowEx, 20000⟩ none
      (fun i => if i = 1 then some recRowEx else none) 20000 recRowEx
      (Or.inl rfl) (by decide)).1,
   (skip_replays_verbatim ⟨1, techRowEx, 20000⟩ none
      (fun i => if i = 1 then some recRowEx else none) 20000 recRowEx
      (Or.inl rfl) (by decide)).2.1⟩

/-- C8: starting a scan while one is running is rejected with a conflict
response and the application state — flag and every persisted table — is left
exactly as it was (the check happens before any row is created). -/
theorem concurrent_scan_rejected (s : AppState) (h : s.scan_running = true) :
    (start_scan s).1 = StartScanResponse.conflict ∧ (start_scan s).2 = s := by
  unfold start_scan
  rw [if_pos h]
  exact ⟨rfl, rfl⟩

/-- Witness for `concurrent_scan_rejected` at a concrete running state. -/
theorem concurrent_scan_rejected_witness :
    (start_scan ⟨true, ⟨[], [], [], [], [], []⟩⟩).2 = ⟨true, ⟨[], [], [], [], [], []⟩⟩ :=
  (concurrent_scan_rejected ⟨true, ⟨[], [], [], [], [], []⟩⟩ rfl).2

lemma collectBusinessDays_length : ∀ (n : ℕ) (d : ℤ), (collectBusinessDays n d).length = n := by
  intro n
  induction n with
  | zero => intro d; rfl
  | succ k ih => intro d; simp [collectBusinessDays, ih]

lemma business_days_length (n : ℕ) (d : ℤ) : (business_days n d).length = n := by
  unfold business_days
  rw [List.length_reverse, collectBusinessDays_length]

lemma gen_walk_length (noise : ℕ → ℚ) (vol drift : ℚ) :
    ∀ (k t : ℕ) (last : ℚ), (gen_walk noise vol drift t k last).length = k := by
  intro k
  induction k with
  | zero => intro t last; rfl
  | succ k ih => intro t last; simp [gen_walk, ih]

lemma generate_normal_series_length (noise : ℕ → ℚ) (t0 : ℕ) (bp : ℚ) (n : ℕ)
    (v d : ℚ) (hn : 1 ≤ n) :
    (generate_normal_series noise t0 bp n v d).length = n := by
  unfold generate_normal_series
  simp [gen_walk_length]
  omega

lemma dip_loop_length (noise : ℕ → ℚ) (dd : ℚ) :
    ∀ (k t : ℕ) (last : ℚ), (dip_loop noise dd t k last).length = k := by
  intro k
  induction k with
  | zero => intro t last; rfl
  | succ k ih => intro t last; simp [dip_loop, ih]

lemma bounce_loop_length (noise : ℕ → ℚ) (db : ℚ) (rd : ℕ) :
    ∀ (k i t : ℕ) (last : ℚ), (bounce_loop noise db rd i t k last).length = k := by
  intro k
  induction k with
  | zero => intro i t last; rfl
  | succ k ih => intro i t last; simp [bounce_loop, ih]

lemma pad_loop_length (noise : ℕ → ℚ) :
    ∀ (k t : ℕ) (prices : List ℚ),
      (pad_loop noise t k prices).length = prices.length + k := by
  intro k
  induction k with
  | zero => intro t prices; rfl
  | succ k ih => intro t prices; simp [pad_loop, ih]; omega

lemma generate_oversold_recovery_length (noise : ℕ → ℚ) (t0 : ℕ) (bp : ℚ) (n : ℕ)
    (f dd : ℚ) (rd : ℕ) :
    (generate_oversold_recovery noise t0 bp n f dd rd).length = n := by
  unfold generate_oversold_recovery
  rw [List.length_take, pad_loop_length]
  omega

lemma mock_closes_length (noise : String → ℕ → ℚ) (symbol : String) (n : ℕ) (hn : 1 ≤ n) :
    (mock_closes noise symbol n).length = n := by
  unfold mock_closes
  split_ifs <;>
    first
      | rw [generate_oversold_recovery_length]
      | rw [generate_normal_series_length _ _ _ _ _ _ hn]

lemma map_date_zip : ∀ (dates : List ℤ) (closes : List ℚ),
    dates.length = closes.length →
    ((dates.zip closes).map (fun dc => PriceBar.mk dc.1 dc.2)).map PriceBar.date = dates := by
  intro dates
  induction dates with
  | nil =>
      intro closes h
      cases closes with
      | nil => rfl
      | cons c cs => simp at h
  | cons d ds ih =>
      intro closes h
      cases closes with
      | nil => simp at h
      | cons c cs =>
          simp only [List.zip_cons_cons, List.map_cons]
          rw [ih cs (by simpa using h)]

lemma map_close_zip : ∀ (dates : List ℤ) (closes : List ℚ),
    dates.length = closes.length →
    ((dates.zip closes).map (fun dc => PriceBar.mk dc.1 dc.2)).map PriceBar.close = closes := by
  intro dates
  induction dates with
  | nil =>
      intro closes h
      cases closes with
      | nil => rfl
      | cons c cs => simp at h
  | cons d ds ih =>
      intro closes h
      cases closes with
      | nil => simp at h
      | cons c cs =>
          simp only [List.zip_cons_cons, List.map_cons]
          rw [ih cs (by simpa using h)]

lemma mock_price_history_length (noise : String → ℕ → ℚ) (symbol : String)
    (months : ℕ) (today : ℤ) :
    (mock_price_history noise symbol months today).length = max 60 (months * 22) := by
  unfold mock_price_history
  rw [List.length_map, List.length_zip, business_days_length,
    mock_closes_length _ _ _ (by split_ifs <;> omega)]
  split_ifs with h <;> omega

/-- C10: the synthetic history always has exactly `max(60, months·22)` bars —
in particular at least 60 — so a symbol served by the synthetic fallback can
never take the under-30-bars `ignored` path: its pipeline status is `ok`. -/
theorem mock_history_never_ignored (noise : String → ℕ → ℚ) (symbol : String)
    (months : ℕ) (today : ℤ) (sym2 : String) (sid : ℕ) :
    (mock_price_history noise symbol months today).length = max 60 (months * 22) ∧
    30 ≤ (mock_price_history noise symbol months today).length ∧
    (process_symbol sym2 sid
      (.success (mock_fundamentals symbol)
        (mock_price_history noise symbol months today))).status = "ok" := by
  have hlen := mock_price_history_length noise symbol months today
  refine ⟨hlen, by omega, ?_⟩
  have h30 : ¬ (mock_price_history noise symbol months today).length < 30 := by omega
  simp [process_symbol, h30]

/-- C4 counterexample: the full bar sequences depend on the hidden current-day
input — the same symbol and month count produce different (differently dated)
sequences when generated on a Monday vs the following Tuesday, so two calls
are not unconditionally byte-identical. -/
theorem mock_history_date_dependent_cx :
    mock_price_history (fun _ _ => 0) "TCS" 9 4 ≠
      mock_price_history (fun _ _ => 0) "TCS" 9 5 := by
  intro h
  have h2 := congrArg (List.map PriceBar.date) h
  unfold mock_price_history at h2
  rw [map_date_zip _ _ (by rw [business_days_length,
        mock_closes_length _ _ _ (by norm_num)]),
      map_date_zip _ _ (by rw [business_days_length,
        mock_closes_length _ _ _ (by norm_num)])] at h2
  have h3 := congrArg List.getLast? h2
  unfold business_days at h3
  rw [List.getLast?_reverse, List.getLast?_reverse] at h3
  exact absurd h3 (by decide)

/-- C4 (amended): the close-price path and the fundamentals are pure functions
of (symbol, month count) — the closes agree for any two generation days; only
the attached bar dates vary with the current day. -/
theorem mock_closes_and_fundamentals_pure (noise : String → ℕ → ℚ) (symbol : String)
    (months : ℕ) (d1 d2 : ℤ) :
    (mock_price_history noise symbol months d1).map PriceBar.close =
      (mock_price_history noise symbol months d2).map PriceBar.close := by
  unfold mock_price_history
  have hn : 1 ≤ (if months * 22 < 60 then 60 else months * 22) := by split_ifs <;> omega
  rw [map_close_zip _ _ (by rw [business_days_length, mock_closes_length _ _ _ hn]),
    map_close_zip _ _ (by rw [business_days_length, mock_closes_length _ _ _ hn])]

/-- C2: the moving-average series has the same length as its input, is defined
exactly at indices `≥ p − 1`, and every defined entry is the arithmetic mean
of the trailing `p` closes. -/
theorem sma_same_length_defined_mean (closes : List ℚ) (p : ℕ) (hp : 1 ≤ p) :
    (sma closes p).length = closes.length ∧
    ∀ i, i < closes.length →
      (sma closes p).getD i none =
        if p ≤ i + 1 then some (((closes.drop (i + 1 - p)).take p).sum / p) else none :=
  ⟨sma_length closes p hp, fun i hi => sma_getD closes p hp i hi⟩

/-- Witness for `sma_same_length_defined_mean` on a concrete series. -/
theorem sma_same_length_defined_mean_witness :
    (sma [1, 3, 5] 2).length = 3 ∧
    (sma [1, 3, 5] 2).getD 1 none =
      some (((([1, 3, 5] : List ℚ).drop 0).take 2).sum / 2) := by
  refine ⟨(sma_same_length_defined_mean [1, 3, 5] 2 (by decide)).1, ?_⟩
  have h := (sma_same_length_defined_mean [1, 3, 5] 2 (by decide)).2 1 (by decide)
  rw [h]
  norm_num

/-- Witness for `rsi_bounds` on a concrete series where the average loss is 0
and the oscillator reads exactly 100. -/
theorem rsi_bounds_witness :
    (rsi [1, 2] 1).getD 1 none = some 100 ∧
      (0 : ℚ) ≤ 100 ∧ (100 : ℚ) ≤ 100 ∧ ((100 : ℚ) = 100 ↔ (0 : ℚ) = 0) :=
  rsi_bounds [1, 2] 1 (by decide) 1 100 0
    (by norm_num [rsiWithLoss, diffs, rsiStepPairs, rsiVal, List.getD])

end StockScreener
